import Mathlib

/-!
Verification of the statistical aggregation pipeline of
`spinegeneric/cli/generate_figure.py` (the spine-generic repository).

The Python functions `fetch_subject`, `remove_subject`, `aggregate_per_site`,
`compute_statistics`, `compute_regression`, together with the site-exclusion
post-pass of `main`, are shallowly embedded below.  Machine floats are
modelled by `ℚ`, with NaN/inf results of numpy modelled as `Option.none`;
`numpy.sqrt` is kept as an abstract parameter `sqrtFn : ℚ → ℚ` (no statement
below depends on its values).  Python exceptions are modelled by
`Except PyError`.  Strings are Lean `String`s; Python path manipulation is
embedded on `List Char`.
-/

deriving instance DecidableEq for Except

namespace SpineGeneric

/-- Python exceptions that the embedded fragment can raise.  A pandas/numpy
`IndexError` carries only the offending index (as the real message
"index i is out of bounds for axis 0 with size 0" does); a scipy
`TypeError` is raised by `f_oneway` when it receives fewer than two
samples. -/
inductive PyError where
  | indexError (i : Int)
  | typeError
  deriving Repr, DecidableEq

/-- Python `s.split(c)` on a list of characters: splits at every occurrence
of `c`, keeping empty chunks; the empty string yields `[""]`. -/
def pyStrSplit (c : Char) : List Char → List (List Char)
  | [] => [[]]
  | x :: xs =>
    match pyStrSplit c xs with
    | [] => if x = c then [[], []] else [[x]]
    | h :: t => if x = c then [] :: h :: t else (x :: h) :: t

/-- `os.path.split(p)` (posix): `tail` is everything after the last `'/'`;
`head` is everything before it, with trailing slashes stripped unless the
head consists only of slashes. -/
def osPathSplit (p : List Char) : List Char × List Char :=
  let tail := (p.reverse.takeWhile (fun c => c ≠ '/')).reverse
  let head := p.take (p.length - tail.length)
  let head := if head ≠ [] ∧ head.any (fun c => c ≠ '/') then
    (head.reverse.dropWhile (fun c => c = '/')).reverse
  else head
  (head, tail)

/-- Python list indexing `l[i]` with negative-index wrap-around; out of
range raises `IndexError`. -/
def pyGet (l : List α) (i : Int) : Except PyError α :=
  let j : Int := if i < 0 then i + l.length else i
  if h : 0 ≤ j ∧ j < l.length then
    .ok (l.get ⟨j.toNat, by omega⟩)
  else
    .error (.indexError i)

/-- `fetch_subject(filename)`: `path, file = os.path.split(filename)` and
then `subject = path.split(os.sep)[-2]`. -/
def fetch_subject (filename : String) : Except PyError String :=
  match pyGet (pyStrSplit '/' (osPathSplit filename.toList).1) (-2) with
  | .ok subject => .ok (String.mk subject)
  | .error e => .error e

/-- Lookup in a Python dict, modelled as an insertion-ordered association
list (first binding wins). -/
def dictGet? (d : List (String × α)) (k : String) : Option α :=
  (d.find? (fun p => p.1 = k)).map (·.2)

/-- `remove_subject(subject, metric, dict_exclude_subj)`: returns `True`
iff `metric` is a key of the exclusion dict and `subject` is contained
verbatim in the associated token list. -/
def remove_subject (subject metric : String)
    (dict_exclude_subj : List (String × List String)) : Bool :=
  match dictGet? dict_exclude_subj metric with
  | some l => l.contains subject
  | none => false

/-! ## Data model: raw records, participant metadata, site aggregates -/

/-- The raw content of the metric-specific field of one row of a result
csv file: either the literal missing-value string `"None"` or a numeric
string, carried as the rational it parses to (`float(val)` in the code is
assumed not to fail on the dataset's numeric strings). -/
inductive RawVal where
  | noneStr
  | num (q : ℚ)
  deriving Repr, DecidableEq

/-- One row of a result csv file, reduced to the fields the aggregation
reads: the `Filename` column and the metric-specific value column. -/
structure MetricRecord where
  filename : String
  value : RawVal
  deriving Repr, DecidableEq

/-- One row of `participants.tsv`. -/
structure SubjectMeta where
  participant_id : String
  institution_id : String
  manufacturer : String
  manufacturers_model_name : String
  deriving Repr, DecidableEq

/-- `participants[participants['participant_id'] == subject]` followed by
`.array[0]`: the first matching row, or an `IndexError` on index 0 when no
row matches (the code never checks emptiness before indexing). -/
def lookupParticipant (participants : List SubjectMeta) (subject : String) :
    Except PyError SubjectMeta :=
  match participants.find? (fun p => p.participant_id = subject) with
  | some p => .ok p
  | none => .error (.indexError 0)

/-- The per-site sub-dict of `results_agg`: keys `'site'`, `'vendor'`,
`'model'`, `'val'`. -/
structure SiteAgg where
  site : String
  vendor : String
  model : String
  val : List ℚ
  deriving Repr, DecidableEq

/-- `results_agg`: a Python dict keyed by site, modelled as an
insertion-ordered association list. -/
abbrev AggMap := List (String × SiteAgg)

/-- Append a parsed value to the `val` list of the first entry keyed
`site` (the code's `results_agg[site]['val'].append(float(val))`). -/
def appendVal : AggMap → String → ℚ → AggMap
  | [], _, _ => []
  | (k, a) :: t, site, q =>
    if k = site then (k, { a with val := a.val ++ [q] }) :: t
    else (k, a) :: appendVal t site q

/-- The body of the per-record loop of `aggregate_per_site`.  State is
`(results_agg, subjects_removed)`.  Order of effects follows the source:
fetch the subject from the filename, drop the record if `remove_subject`
says so, look up the participant row (raising on a missing subject),
initialise the site's sub-dict on first sight, and append the value unless
it is the literal `"None"`.  (The code also writes the value into a `val`
column of the participants table; that write is never read back and is not
modelled.) -/
def aggStep (participants : List SubjectMeta) (metric : String)
    (dict_exclude_subj : List (String × List String))
    (st : AggMap × List String) (r : MetricRecord) :
    Except PyError (AggMap × List String) :=
  match fetch_subject r.filename with
  | .error e => .error e
  | .ok subject =>
    if remove_subject subject metric dict_exclude_subj then
      .ok (st.1, st.2 ++ [subject])
    else
      match lookupParticipant participants subject with
      | .error e => .error e
      | .ok meta =>
        let site := meta.institution_id
        let m := st.1
        let m := if (dictGet? m site).isNone then
          m ++ [(site, { site := site, vendor := meta.manufacturer,
                         model := meta.manufacturers_model_name, val := [] })]
        else m
        let m := match r.value with
          | .noneStr => m
          | .num q => appendVal m site q
        .ok (m, st.2)

/-- The loop of `aggregate_per_site`, processing records left to right and
propagating the first raised exception. -/
def aggLoop (participants : List SubjectMeta) (metric : String)
    (dict_exclude_subj : List (String × List String)) :
    List MetricRecord → AggMap × List String →
    Except PyError (AggMap × List String)
  | [], st => .ok st
  | r :: rest, st =>
    match aggStep participants metric dict_exclude_subj st r with
    | .error e => .error e
    | .ok st' => aggLoop participants metric dict_exclude_subj rest st'

/-- `aggregate_per_site(dict_results, metric, dict_exclude_subj)`.  The
participants table, read from `participants.tsv` by the source, is passed
explicitly (file I/O is outside the model). -/
def aggregate_per_site (dict_results : List MetricRecord) (metric : String)
    (dict_exclude_subj : List (String × List String))
    (participants : List SubjectMeta) : Except PyError AggMap :=
  match aggLoop participants metric dict_exclude_subj dict_results ([], []) with
  | .ok st => .ok st.1
  | .error e => .error e

/-- The value list recorded for `site`, `[]` when the site is absent. -/
def valsAt (m : AggMap) (site : String) : List ℚ :=
  match dictGet? m site with
  | some a => a.val
  | none => []

/-! ## The dataframe rows and the site-exclusion post-pass of `main` -/

/-- One row of the pandas dataframe built from `results_agg`, after
`main` has added the `exclude` column. -/
structure SiteRow extends SiteAgg where
  exclude : Bool
  deriving Repr, DecidableEq

/-- `pd.DataFrame.from_dict(results_agg, orient='index')`: one row per
aggregated site, in dict insertion order, `exclude` initially absent
(set to `False` by the post-pass before first use). -/
def rowsOfAgg (m : AggMap) : List SiteRow :=
  m.map (fun p => { toSiteAgg := p.2, exclude := false })

/-- One token of the post-pass: `df['exclude'][tok] = True` sets the flag
of the row labelled `tok`; a token matching no site label leaves the
dataframe unchanged (the chained pandas assignment enlarges only a
temporary series). -/
def setExcludeTok (rows : List SiteRow) (tok : String) : List SiteRow :=
  rows.map (fun r => if r.site = tok then { r with exclude := true } else r)

/-- Python `str.startswith`, on the underlying character lists (the
built-in `String.startsWith` is byte-position based and does not reduce in
the kernel). -/
def strStartsWith (s pre : String) : Bool :=
  pre.toList.isPrefixOf s.toList

/-- The post-pass of `main`: reset `exclude` to `False` everywhere, then
for every token of the metric's exclusion list that does not start with
`'sub-'`, set the flag of the row labelled by the token. -/
def markExcludedSites (rows : List SiteRow) (metric : String)
    (dict_exclude_subj : List (String × List String)) : List SiteRow :=
  let rows := rows.map (fun r => { r with exclude := false })
  match dictGet? dict_exclude_subj metric with
  | none => rows
  | some toks =>
    toks.foldl
      (fun rs t => if strStartsWith t "sub-" then rs else setExcludeTok rs t)
      rows

/-! ## numpy semantics over `ℚ`, with NaN/inf modelled as `none` -/

/-- `np.mean`: the arithmetic mean; the empty input produces NaN. -/
def npMean (l : List ℚ) : Option ℚ :=
  if l.isEmpty then none else some (l.sum / l.length)

/-- The population variance behind `np.std` (`ddof=0`: division by N). -/
def npVar (l : List ℚ) : Option ℚ :=
  match npMean l with
  | none => none
  | some μ => some ((l.map (fun x => (x - μ) ^ 2)).sum / l.length)

/-- `np.std`: square root of the population variance; the root itself is
kept abstract as `sqrtFn`. -/
def npStd (sqrtFn : ℚ → ℚ) (l : List ℚ) : Option ℚ :=
  (npVar l).map sqrtFn

/-- Float division with undefined results (`x/0` and any NaN operand)
modelled as `none`. -/
def optDiv : Option ℚ → Option ℚ → Option ℚ
  | some a, some b => if b = 0 then none else some (a / b)
  | _, _ => none

/-- Collapse a list of possibly-NaN floats: `none` as soon as one entry is
NaN (numpy propagates NaN through sums and means). -/
def allSome : List (Option ℚ) → Option (List ℚ)
  | [] => some []
  | none :: _ => none
  | some q :: t => (allSome t).map (q :: ·)

/-- `np.mean` over entries that may be NaN. -/
def npMeanOpt (l : List (Option ℚ)) : Option ℚ :=
  (allSome l).bind npMean

/-- `np.std` over entries that may be NaN. -/
def npStdOpt (sqrtFn : ℚ → ℚ) (l : List (Option ℚ)) : Option ℚ :=
  ((allSome l).bind npVar).map sqrtFn

/-- `scipy.stats.f_oneway` on exact samples: raises `TypeError` when given
fewer than two samples; degenerate inputs (an empty sample, or a zero
denominator in the F ratio) yield NaN/inf, modelled as `none`; otherwise
the classical one-way F statistic. -/
def f_oneway (samples : List (List ℚ)) : Except PyError (Option ℚ) :=
  if samples.length < 2 then .error .typeError
  else if samples.any List.isEmpty then .ok none
  else
    let N : ℚ := (samples.map List.length).sum
    let k : ℚ := samples.length
    let grand : ℚ := (samples.map List.sum).sum / N
    let ssb : ℚ :=
      (samples.map (fun s => (s.length : ℚ) * (s.sum / s.length - grand) ^ 2)).sum
    let ssw : ℚ :=
      (samples.map (fun s => (s.map (fun x => (x - s.sum / s.length) ^ 2)).sum)).sum
    if N - k = 0 ∨ ssw = 0 then .ok none
    else .ok (some ((ssb / (k - 1)) / (ssw / (N - k))))

/-- `f_oneway` on samples containing possibly-NaN floats: NaN anywhere in
the data makes the statistic NaN; the two-sample arity check still comes
first. -/
def f_onewayOpt (samples : List (List (Option ℚ))) : Except PyError (Option ℚ) :=
  if samples.length < 2 then .error .typeError
  else if samples.any (fun s => s.any (fun o => o.isNone)) then .ok none
  else f_oneway (samples.map (fun s => s.filterMap id))

/-! ## `compute_statistics` -/

/-- The fixed vendor list of `compute_statistics`. -/
def vendors : List String := ["GE", "Philips", "Siemens"]

/-- The three per-site columns added to the dataframe:
`mean = np.mean(val)`, `std = np.std(val)`, `cov = std/mean`. -/
structure SiteStats where
  mean : Option ℚ
  std : Option ℚ
  cov : Option ℚ
  deriving Repr, DecidableEq

/-- Per-site statistics of one site's value list, exactly as the per-site
loop and the `df['cov']` column compute them. -/
def siteStatsFn (sqrtFn : ℚ → ℚ) (val : List ℚ) : SiteStats :=
  { mean := npMean val
    std := npStd sqrtFn val
    cov := optDiv (npStd sqrtFn val) (npMean val) }

/-- `df['mean'][(df['vendor'] == vendor) & ~df['exclude']]`: the within-
site means of the non-excluded sites of one vendor. -/
def val_per_vendor (df : List SiteRow) (vendor : String) : List (Option ℚ) :=
  (df.filter (fun r => r.vendor = vendor ∧ r.exclude = false)).map
    (fun r => npMean r.val)

/-- `stats['mean'][vendor]`. -/
def vendorMean (df : List SiteRow) (vendor : String) : Option ℚ :=
  npMeanOpt (val_per_vendor df vendor)

/-- `stats['std'][vendor]`. -/
def vendorStd (sqrtFn : ℚ → ℚ) (df : List SiteRow) (vendor : String) : Option ℚ :=
  npStdOpt sqrtFn (val_per_vendor df vendor)

/-- `stats['cov_inter'][vendor] = np.std(...) / np.mean(...)`. -/
def vendorCovInter (sqrtFn : ℚ → ℚ) (df : List SiteRow) (vendor : String) :
    Option ℚ :=
  optDiv (vendorStd sqrtFn df vendor) (vendorMean df vendor)

/-- `stats['cov_intra'][vendor]`: the mean, over the vendor's non-excluded
sites, of the elementwise ratios `df['std'] / df['mean']`. -/
def vendorCovIntra (sqrtFn : ℚ → ℚ) (df : List SiteRow) (vendor : String) :
    Option ℚ :=
  npMeanOpt
    ((df.filter (fun r => r.vendor = vendor ∧ r.exclude = false)).map
      (fun r => optDiv (npStd sqrtFn r.val) (npMean r.val)))

/-- The `anova_site` statistic (computed identically on each of the three
vendor-loop iterations): `f_oneway` over the raw value lists of the sites
whose vendor is the hard-coded `'GE'`, with no exclusion filter. -/
def anova_site (df : List SiteRow) : Except PyError (Option ℚ) :=
  f_oneway ((df.filter (fun r => r.vendor = "GE")).map (fun r => r.val))

/-- `stats['anova_vendor']`: `f_oneway` over the three vendors' lists of
within-site means, taken from all rows — the `exclude` flag is not
consulted here. -/
def anova_vendor (df : List SiteRow) : Except PyError (Option ℚ) :=
  f_onewayOpt
    (vendors.map (fun v =>
      (df.filter (fun r => r.vendor = v)).map (fun r => npMean r.val)))

/-- The arguments handed to `pairwise_tukeyhsd`: the full `df['mean']`
column paired with the full `df['vendor']` column, again with no
exclusion filter.  The statsmodels routine itself is an external
collaborator and is modelled by its argument list. -/
def tukeyArgs (df : List SiteRow) : List (Option ℚ × String) :=
  df.map (fun r => (npMean r.val, r.vendor))

/-- The `stats` dict of `compute_statistics`. -/
structure VendorStats where
  mean : List (String × Option ℚ)
  std : List (String × Option ℚ)
  cov_inter : List (String × Option ℚ)
  cov_intra : List (String × Option ℚ)
  anova_site : List (String × Option ℚ)
  anova_vendor : Option ℚ
  tukey_args : List (Option ℚ × String)
  deriving Repr, DecidableEq

/-- `compute_statistics(df)`: adds the per-site `mean`/`std`/`cov` columns
(returned here alongside the untouched input rows) and fills the `stats`
dict.  The call can raise: `f_oneway` inside the vendor loop raises
`TypeError` when fewer than two `'GE'` sites exist (including the empty
dataframe).  The `anova_site` entry is keyed by the leftover loop
variable `site`, i.e. the last site of the dataframe. -/
def compute_statistics (sqrtFn : ℚ → ℚ) (df : List SiteRow) :
    Except PyError (List (SiteRow × SiteStats) × VendorStats) :=
  match anova_site df with
  | .error e => .error e
  | .ok aSite =>
    match anova_vendor df with
    | .error e => .error e
    | .ok aVendor =>
      .ok (df.map (fun r => (r, siteStatsFn sqrtFn r.val)),
        { mean := vendors.map (fun v => (v, vendorMean df v))
          std := vendors.map (fun v => (v, vendorStd sqrtFn df v))
          cov_inter := vendors.map (fun v => (v, vendorCovInter sqrtFn df v))
          cov_intra := vendors.map (fun v => (v, vendorCovIntra sqrtFn df v))
          anova_site := match (df.map (fun r => r.site)).getLast? with
            | some s => [(s, aSite)]
            | none => []
          anova_vendor := aVendor
          tukey_args := tukeyArgs df })

/-! ## `compute_regression` (ordinary least squares over one predictor) -/

/-- The result quadruple of `compute_regression`. -/
structure RegressionResult where
  slope : ℚ
  intercept : ℚ
  predictions : List ℚ
  r2 : ℚ
  deriving Repr, DecidableEq

/-- `compute_regression`: sklearn's `LinearRegression().fit` on one
predictor, in closed form — `slope = Σ(x-x̄)(y-ȳ) / Σ(x-x̄)²`,
`intercept = ȳ - slope·x̄` — followed by `predict` on the same `x` and the
in-sample `score` `R² = 1 - SSres/SStot`.  In the source `x` is the
vendor's concatenated T2w CSA values and `y` the matching T1w values. -/
def compute_regression (x y : List ℚ) : RegressionResult :=
  let n : ℚ := x.length
  let xbar := x.sum / n
  let ybar := y.sum / n
  let sxx := (x.map (fun a => (a - xbar) ^ 2)).sum
  let sxy := ((x.zip y).map (fun p => (p.1 - xbar) * (p.2 - ybar))).sum
  let slope := sxy / sxx
  let intercept := ybar - slope * xbar
  let preds := x.map (fun a => slope * a + intercept)
  let ssres := ((y.zip preds).map (fun p => (p.1 - p.2) ^ 2)).sum
  let sstot := (y.map (fun a => (a - ybar) ^ 2)).sum
  { slope := slope, intercept := intercept, predictions := preds,
    r2 := 1 - ssres / sstot }

/-! ## The sorted view used by figure preparation -/

/-- The sort key relation of `df.sort_values(by=['vendor', 'model',
'site'])`. -/
def rowLE (a b : SiteRow) : Prop :=
  a.vendor < b.vendor ∨ (a.vendor = b.vendor ∧
    (a.model < b.model ∨ (a.model = b.model ∧ a.site ≤ b.site)))

instance : DecidableRel rowLE := fun a b => by
  unfold rowLE; infer_instance

/-- The sorted row order computed by `generate_figure_metric`
(`df.sort_values(...)` returns a fresh object; the dataframe itself is
left untouched). -/
def sortedRows (df : List SiteRow) : List SiteRow :=
  List.insertionSort rowLE df

/-! ## Spec-side definitions (for refinement statements) and derived views -/

/-- The spec's arithmetic mean of a non-empty value list. -/
def specMean (l : List ℚ) : ℚ := l.sum / l.length

/-- The spec's population standard deviation: square root of the sum of
squared deviations divided by N (not N-1); the root is the same abstract
`sqrtFn` used by the embedding of `np.std`. -/
def specPopStd (sqrtFn : ℚ → ℚ) (l : List ℚ) : ℚ :=
  sqrtFn ((l.map (fun x => (x - specMean l) ^ 2)).sum / l.length)

/-- The `stats` part of a `compute_statistics` call that did not raise. -/
def statsOf (e : Except PyError (List (SiteRow × SiteStats) × VendorStats)) :
    Option VendorStats :=
  e.toOption.map (·.2)

/-- Whether processing one record of the aggregation loop raises no
exception: the filename yields a subject, and the subject is either
removed by the exclusion config or present in the participants table. -/
def stepOK (participants : List SubjectMeta) (metric : String)
    (dict_exclude_subj : List (String × List String)) (r : MetricRecord) : Prop :=
  ∃ s, fetch_subject r.filename = .ok s ∧
    (remove_subject s metric dict_exclude_subj = true ∨
     ∃ p, lookupParticipant participants s = .ok p)

/-- The contribution of one record to the value list aggregated for
`site`: its parsed value when the record's subject is not removed, is
found in the metadata, belongs to `site`, and its raw value is not the
literal `"None"`; nothing otherwise. -/
def recContrib (participants : List SubjectMeta) (metric : String)
    (dict_exclude_subj : List (String × List String)) (site : String)
    (r : MetricRecord) : Option ℚ :=
  match fetch_subject r.filename with
  | .error _ => none
  | .ok s =>
    if remove_subject s metric dict_exclude_subj then none
    else
      match lookupParticipant participants s with
      | .error _ => none
      | .ok p =>
        if p.institution_id = site then
          match r.value with
          | .noneStr => none
          | .num q => some q
        else none

/-! ## Concrete instances used by counterexamples and witnesses -/

/-- Metadata table: one subject at site `oxfordFmrib`. -/
def mdC2 : List SubjectMeta :=
  [⟨"sub-oxfordFmrib04", "oxfordFmrib", "Siemens", "Prisma"⟩]

/-- Exclusion config carrying the bare site token `oxfordFmrib`. -/
def cfgC2 : List (String × List String) := [("csa_t2", ["oxfordFmrib"])]

/-- Metadata table that contains neither `sub-aaa01` nor `sub-bbb01`. -/
def mdC5 : List SubjectMeta := [⟨"sub-ccc01", "ccc", "GE", "Signa"⟩]

/-- Metadata table: one subject at site `B`. -/
def mdC4 : List SubjectMeta := [⟨"sub-B01", "B", "GE", "Signa"⟩]

/-- A dataframe row for site `B`, not excluded. -/
def rowB : SiteRow := ⟨⟨"B", "GE", "Signa", []⟩, false⟩

/-- Five sites over the three vendors; site `B` is flagged excluded. -/
def dfA : List SiteRow :=
  [⟨⟨"A", "GE", "M1", [1, 3]⟩, false⟩,
   ⟨⟨"B", "GE", "M1", [5]⟩, true⟩,
   ⟨⟨"C", "Philips", "M2", [2, 4]⟩, false⟩,
   ⟨⟨"D", "Philips", "M2", [6]⟩, false⟩,
   ⟨⟨"E", "Siemens", "M3", [3]⟩, false⟩]

/-- `dfA` with the values of the excluded site `B` replaced. -/
def dfB : List SiteRow :=
  [⟨⟨"A", "GE", "M1", [1, 3]⟩, false⟩,
   ⟨⟨"B", "GE", "M1", [7]⟩, true⟩,
   ⟨⟨"C", "Philips", "M2", [2, 4]⟩, false⟩,
   ⟨⟨"D", "Philips", "M2", [6]⟩, false⟩,
   ⟨⟨"E", "Siemens", "M3", [3]⟩, false⟩]

/-- A well-formed dataframe over the three vendors plus a row whose
vendor `Foo` is outside the recognized set. -/
def dfFoo : List SiteRow :=
  [⟨⟨"G1", "GE", "M1", [2]⟩, false⟩,
   ⟨⟨"G2", "GE", "M1", [4]⟩, false⟩,
   ⟨⟨"P1", "Philips", "M2", [3]⟩, false⟩,
   ⟨⟨"S1", "Siemens", "M3", [5]⟩, false⟩,
   ⟨⟨"F1", "Foo", "M4", [6]⟩, false⟩]

/-- A small two-vendor-complete dataframe used to instantiate the
exclusion-dataflow theorem. -/
def dfC1 : List SiteRow :=
  [⟨⟨"A", "GE", "M1", [1, 3]⟩, false⟩,
   ⟨⟨"B", "GE", "M1", [5]⟩, false⟩,
   ⟨⟨"C", "Philips", "M2", [4]⟩, false⟩,
   ⟨⟨"E", "Siemens", "M3", [3]⟩, false⟩]

/-- `dfC1` extended by an additional excluded site. -/
def dfC1' : List SiteRow :=
  dfC1 ++ [⟨⟨"X", "GE", "M1", [9]⟩, true⟩]

/-- Metadata for the aggregation witness: two subjects at site `s1`. -/
def mdC6 : List SubjectMeta :=
  [⟨"sub-ok01", "s1", "GE", "Signa"⟩, ⟨"sub-ex01", "s1", "GE", "Signa"⟩]

/-- Exclusion config removing subject `sub-ex01` for metric `m`. -/
def cfgC6 : List (String × List String) := [("m", ["sub-ex01"])]

/-- Three records: a numeric one, a missing (`"None"`) one, and one from
the excluded subject. -/
def recs₁W : List MetricRecord :=
  [⟨"d/sub-ok01/anat/m.csv", .num 5⟩,
   ⟨"d/sub-ok01/anat/m2.csv", .noneStr⟩,
   ⟨"d/sub-ex01/anat/m.csv", .num 9⟩]

/-- `recs₁W` with its first two records swapped. -/
def recs₂W : List MetricRecord :=
  [⟨"d/sub-ok01/anat/m2.csv", .noneStr⟩,
   ⟨"d/sub-ok01/anat/m.csv", .num 5⟩,
   ⟨"d/sub-ex01/anat/m.csv", .num 9⟩]

/-- The aggregate produced from `recs₁W`. -/
def res₁W : AggMap := [("s1", ⟨"s1", "GE", "Signa", [5]⟩)]

/-! ## Theorems -/

theorem pyGet_neg2 (l : List (List Char)) :
    pyGet l (-2) =
      if 2 ≤ l.length then .ok (l.getD (l.length - 2) [])
      else .error (.indexError (-2)) := by
  simp only [pyGet]
  simp only [show ((-2 : Int) < 0) = True from by norm_num, if_true]
  by_cases h2 : 2 ≤ l.length
  · have hcond : 0 ≤ (-2) + (l.length : Int) ∧ (-2) + (l.length : Int) < (l.length : Int) := by
      omega
    rw [dif_pos hcond, if_pos h2]
    have hidx : ((-2) + (l.length : Int)).toNat = l.length - 2 := by omega
    simp only [List.get_eq_getElem,
      List.getD_eq_getElem _ _ (show l.length - 2 < l.length by omega), hidx]
  · have hcond : ¬(0 ≤ (-2) + (l.length : Int) ∧ (-2) + (l.length : Int) < (l.length : Int)) := by
      omega
    rw [dif_neg hcond, if_neg h2]

/-- C10: for every filename, `fetch_subject` returns the second-to-last
component of the split-at-`'/'` directory part — the directory two levels
above the leaf file — whenever that split has at least two components,
and raises an `IndexError` (at the negative index `-2`) whenever it has
fewer. -/
theorem fetch_subject_spec (f : String) :
    fetch_subject f =
      (if 2 ≤ (pyStrSplit '/' (osPathSplit f.toList).1).length then
        .ok (String.mk ((pyStrSplit '/' (osPathSplit f.toList).1).getD
          ((pyStrSplit '/' (osPathSplit f.toList).1).length - 2) []))
      else .error (.indexError (-2))) := by
  simp only [fetch_subject]
  rw [pyGet_neg2]
  by_cases h : 2 ≤ (pyStrSplit '/' (osPathSplit f.toList).1).length
  · rw [if_pos h, if_pos h]
  · rw [if_neg h, if_neg h]

/-- C10 witness: a filename with a two-component directory part yields
the parent-of-parent directory; a bare filename raises. -/
theorem fetch_subject_spec_witness :
    fetch_subject "study/sub-tokyo01/anat/result.csv" = .ok "sub-tokyo01" ∧
    fetch_subject "result.csv" = .error (.indexError (-2)) := by
  constructor
  · rw [fetch_subject_spec "study/sub-tokyo01/anat/result.csv"]; decide
  · rw [fetch_subject_spec "result.csv"]; decide

/-- C2 (amended): `remove_subject subject metric cfg` is true exactly when
`metric` has an entry in the exclusion config and `subject` appears
verbatim in it.  The site implied by the subject is never consulted: a
bare site token excludes no subject here (site exclusion happens in the
separate `exclude`-flag post-pass of `main`). -/
theorem remove_subject_iff (subject metric : String)
    (cfg : List (String × List String)) :
    remove_subject subject metric cfg = true ↔
      ∃ l, dictGet? cfg metric = some l ∧ subject ∈ l := by
  unfold remove_subject
  cases h : dictGet? cfg metric with
  | none => simp
  | some l => simp [List.contains]

/-- C2 counterexample: subject `sub-oxfordFmrib04` belongs to site
`oxfordFmrib` (per the metadata table), the metric's exclusion list
contains the bare site token `oxfordFmrib`, yet `remove_subject` returns
`false` — the claim's site disjunct does not hold in the code. -/
theorem remove_subject_ignores_site_cex :
    lookupParticipant mdC2 "sub-oxfordFmrib04" =
      .ok ⟨"sub-oxfordFmrib04", "oxfordFmrib", "Siemens", "Prisma"⟩ ∧
    dictGet? cfgC2 "csa_t2" = some ["oxfordFmrib"] ∧
    remove_subject "sub-oxfordFmrib04" "csa_t2" cfgC2 = false := by
  refine ⟨?_, ?_, ?_⟩ <;> decide

/-- C3: the per-site columns equal the spec's formulas — mean is the
arithmetic mean, std the population standard deviation (division by N,
not N-1), cov their quotient — and on an empty value list or a zero mean
the result is undefined (`none`), never coerced to `some 0`. -/
theorem siteStats_spec (sqrtFn : ℚ → ℚ) (l : List ℚ) :
    siteStatsFn sqrtFn l =
      if l = [] then { mean := none, std := none, cov := none }
      else
        { mean := some (specMean l)
          std := some (specPopStd sqrtFn l)
          cov := if specMean l = 0 then none
                 else some (specPopStd sqrtFn l / specMean l) } := by
  by_cases h : l = []
  · subst h; rfl
  · rw [if_neg h]
    have hne : l.isEmpty = false := by simpa using h
    simp [siteStatsFn, npMean, npStd, npVar, optDiv, specMean, specPopStd, hne]

/-- Sum of an affine image of a list. -/
theorem list_sum_map_affine (c d : ℚ) (x : List ℚ) :
    (x.map (fun t => c * t + d)).sum = c * x.sum + d * x.length := by
  induction x with
  | nil => simp
  | cons a t ih =>
    simp only [List.map_cons, List.sum_cons, ih, List.length_cons]
    push_cast
    ring

/-- Zipping a list with its own image lists the graph of the function. -/
theorem list_zip_self_map (f : ℚ → ℚ) (x : List ℚ) :
    x.zip (x.map f) = x.map (fun t => (t, f t)) := by
  induction x with
  | nil => rfl
  | cons a t ih => simp [ih]

/-- A sum of squared deviations vanishes only on constant data. -/
theorem sum_sq_dev_ne_zero (x : List ℚ) (μ a b : ℚ)
    (ha : a ∈ x) (hb : b ∈ x) (hab : a ≠ b) :
    (x.map (fun t => (t - μ) ^ 2)).sum ≠ 0 := by
  intro h0
  have hnn : ∀ y ∈ x.map (fun t => (t - μ) ^ 2), (0 : ℚ) ≤ y := by
    intro y hy
    obtain ⟨t, _, rfl⟩ := List.mem_map.mp hy
    positivity
  have hzero : ∀ y ∈ x.map (fun t => (t - μ) ^ 2), y = (0 : ℚ) := by
    intro y hy
    have h1 := List.single_le_sum hnn y hy
    have h2 := hnn y hy
    rw [h0] at h1
    linarith
  have haz := hzero _ (List.mem_map_of_mem _ ha)
  have hbz := hzero _ (List.mem_map_of_mem _ hb)
  have ha' : a - μ = 0 := (pow_eq_zero_iff (two_ne_zero)).mp haz
  have hb' : b - μ = 0 := (pow_eq_zero_iff (two_ne_zero)).mp hbz
  exact hab (by linarith)

/-- Squared differences over a list zipped with itself sum to zero. -/
theorem list_zip_self_sq_diff_sum (l : List ℚ) :
    ((l.zip l).map (fun p => (p.1 - p.2) ^ 2)).sum = 0 := by
  induction l with
  | nil => rfl
  | cons a t ih => simp [ih]

/-- C7: on noiseless data `y = 2x + 3` with at least two distinct
predictor values, `compute_regression` recovers slope 2, intercept 3,
fitted values equal to `y`, and in-sample R² = 1. -/
theorem compute_regression_noiseless (x : List ℚ) (a b : ℚ)
    (ha : a ∈ x) (hb : b ∈ x) (hab : a ≠ b) :
    compute_regression x (x.map (fun t => 2 * t + 3)) =
      { slope := 2, intercept := 3,
        predictions := x.map (fun t => 2 * t + 3), r2 := 1 } := by
  have hx : x ≠ [] := by rintro rfl; cases ha
  have hn : (x.length : ℚ) ≠ 0 := by
    simpa using (List.length_pos.mpr hx).ne'
  have hyb : (x.map (fun t => 2 * t + 3)).sum / (x.length : ℚ)
      = 2 * (x.sum / (x.length : ℚ)) + 3 := by
    rw [list_sum_map_affine]
    field_simp
  have hsxx : (x.map (fun t => (t - x.sum / (x.length : ℚ)) ^ 2)).sum ≠ 0 :=
    sum_sq_dev_ne_zero x _ a b ha hb hab
  have hsxy : ((x.zip (x.map (fun t => 2 * t + 3))).map
      (fun p => (p.1 - x.sum / (x.length : ℚ)) *
        (p.2 - (x.map (fun t => 2 * t + 3)).sum / (x.length : ℚ)))).sum
      = 2 * (x.map (fun t => (t - x.sum / (x.length : ℚ)) ^ 2)).sum := by
    rw [list_zip_self_map, List.map_map]
    rw [show ((fun p : ℚ × ℚ => (p.1 - x.sum / (x.length : ℚ)) *
        (p.2 - (x.map (fun t => 2 * t + 3)).sum / (x.length : ℚ))) ∘
        (fun t => (t, 2 * t + 3)))
      = fun t => (t - x.sum / (x.length : ℚ)) *
          (2 * t + 3 - (x.map (fun t => 2 * t + 3)).sum / (x.length : ℚ)) from rfl]
    rw [show (fun t => (t - x.sum / (x.length : ℚ)) *
        (2 * t + 3 - (x.map (fun t => 2 * t + 3)).sum / (x.length : ℚ)))
      = fun t => 2 * ((t - x.sum / (x.length : ℚ)) ^ 2) from by
        funext t; rw [hyb]; ring]
    rw [List.sum_map_mul_left]
  have hslope : ((x.zip (x.map (fun t => 2 * t + 3))).map
      (fun p => (p.1 - x.sum / (x.length : ℚ)) *
        (p.2 - (x.map (fun t => 2 * t + 3)).sum / (x.length : ℚ)))).sum /
      (x.map (fun t => (t - x.sum / (x.length : ℚ)) ^ 2)).sum = 2 := by
    rw [hsxy]
    exact mul_div_cancel_right₀ 2 hsxx
  have hconst : (fun a : ℚ => 2 * a +
      (2 * (x.sum / (x.length : ℚ)) + 3 - 2 * (x.sum / (x.length : ℚ))))
      = fun t : ℚ => 2 * t + 3 := by
    funext t; ring
  simp only [compute_regression, RegressionResult.mk.injEq]
  rw [hslope, hyb]
  refine ⟨rfl, by ring, by rw [hconst], ?_⟩
  rw [hconst, list_zip_self_sq_diff_sum]
  simp

/-- C7 witness: the noiseless-recovery theorem instantiated at the
two-point data set x = [0, 1], y = [3, 5]. -/
theorem compute_regression_noiseless_witness :
    compute_regression [0, 1] [3, 5] =
      { slope := 2, intercept := 3, predictions := [3, 5], r2 := 1 } := by
  have h := compute_regression_noiseless [0, 1] 0 1 (by simp) (by simp) (by norm_num)
  norm_num at h
  exact h

theorem dictGet?_append {α : Type} (d₁ d₂ : List (String × α)) (k : String) :
    dictGet? (d₁ ++ d₂) k = (dictGet? d₁ k).or (dictGet? d₂ k) := by
  simp only [dictGet?, List.find?_append]
  cases List.find? (fun p => p.1 = k) d₁ <;> simp

theorem dictGet?_appendVal_self (m : AggMap) (site : String) (q : ℚ) :
    dictGet? (appendVal m site q) site
      = (dictGet? m site).map (fun a => { a with val := a.val ++ [q] }) := by
  induction m with
  | nil => rfl
  | cons p t ih =>
    obtain ⟨k0, a0⟩ := p
    by_cases hk : k0 = site
    · subst hk
      simp [appendVal, dictGet?]
    · simp only [appendVal, if_neg hk]
      simp only [dictGet?, List.find?] at ih ⊢
      simp only [show (decide (k0 = site)) = false from by simp [hk]]
      exact ih

theorem dictGet?_appendVal_ne (m : AggMap) (site s : String) (q : ℚ)
    (h : s ≠ site) :
    dictGet? (appendVal m site q) s = dictGet? m s := by
  induction m with
  | nil => rfl
  | cons p t ih =>
    obtain ⟨k0, a0⟩ := p
    by_cases hk : k0 = site
    · subst hk
      simp only [appendVal, if_pos rfl]
      simp [dictGet?, List.find?, Ne.symm h]
    · simp only [appendVal, if_neg hk]
      by_cases hk2 : k0 = s
      · subst hk2; simp [dictGet?, List.find?]
      · simp only [dictGet?, List.find?] at ih ⊢
        simp only [show (decide (k0 = s)) = false from by simp [hk2]]
        exact ih

theorem valsAt_appendVal_self (m : AggMap) (site : String) (q : ℚ)
    (h : (dictGet? m site).isSome) :
    valsAt (appendVal m site q) site = valsAt m site ++ [q] := by
  unfold valsAt
  rw [dictGet?_appendVal_self]
  cases hg : dictGet? m site with
  | none => rw [hg] at h; simp at h
  | some a => simp

theorem valsAt_appendVal_ne (m : AggMap) (site s : String) (q : ℚ)
    (h : s ≠ site) :
    valsAt (appendVal m site q) s = valsAt m s := by
  unfold valsAt
  rw [dictGet?_appendVal_ne m site s q h]

theorem dictGet?_snoc_self (m : AggMap) (site : String) (agg : SiteAgg)
    (h : dictGet? m site = none) :
    dictGet? (m ++ [(site, agg)]) site = some agg := by
  rw [dictGet?_append, h]
  simp [dictGet?, List.find?]

theorem dictGet?_snoc_ne (m : AggMap) (site s : String) (agg : SiteAgg)
    (h : s ≠ site) :
    dictGet? (m ++ [(site, agg)]) s = dictGet? m s := by
  rw [dictGet?_append]
  cases hg : dictGet? m s with
  | some a => simp
  | none => simp [dictGet?, List.find?, Ne.symm h]

/-- One step of the aggregation loop appends exactly the record's
contribution to each site's value list. -/
theorem aggStep_ok_vals (ps : List SubjectMeta) (metric : String)
    (cfg : List (String × List String)) (st : AggMap × List String)
    (r : MetricRecord) (st' : AggMap × List String)
    (h : aggStep ps metric cfg st r = .ok st') (site : String) :
    valsAt st'.1 site
      = valsAt st.1 site ++ (recContrib ps metric cfg site r).toList := by
  unfold aggStep at h
  unfold recContrib
  cases hf : fetch_subject r.filename with
  | error e => rw [hf] at h; simp at h
  | ok s =>
    rw [hf] at h
    simp only [] at h ⊢
    by_cases hr : remove_subject s metric cfg
    · rw [if_pos hr] at h
      cases h
      simp [hr]
    · rw [if_neg hr] at h
      rw [Bool.not_eq_true] at hr
      rw [hr]
      simp only [Bool.false_eq_true, if_false]
      cases hl : lookupParticipant ps s with
      | error e => rw [hl] at h; simp at h
      | ok meta =>
        rw [hl] at h
        simp only [] at h ⊢
        cases hg : dictGet? st.1 meta.institution_id with
        | none =>
          rw [if_pos (show (dictGet? st.1 meta.institution_id).isNone = true from
            by rw [hg]; rfl)] at h
          cases hv : r.value with
          | noneStr =>
            rw [hv] at h
            simp only [] at h
            cases h
            by_cases hss : meta.institution_id = site
            · subst hss
              unfold valsAt
              rw [dictGet?_snoc_self _ _ _ hg, hg, if_pos rfl]
              simp
            · unfold valsAt
              rw [dictGet?_snoc_ne _ _ _ _ (fun hc => hss hc.symm), if_neg hss]
              simp
          | num q =>
            rw [hv] at h
            simp only [] at h
            cases h
            by_cases hss : meta.institution_id = site
            · subst hss
              rw [valsAt_appendVal_self _ _ _
                (by rw [dictGet?_snoc_self _ _ _ hg]; rfl)]
              unfold valsAt
              rw [dictGet?_snoc_self _ _ _ hg, hg, if_pos rfl]
              simp
            · rw [valsAt_appendVal_ne _ _ _ _ (fun hc => hss hc.symm)]
              unfold valsAt
              rw [dictGet?_snoc_ne _ _ _ _ (fun hc => hss hc.symm), if_neg hss]
              simp
        | some a =>
          rw [if_neg (show ¬((dictGet? st.1 meta.institution_id).isNone = true) from
            by rw [hg]; simp)] at h
          cases hv : r.value with
          | noneStr =>
            rw [hv] at h
            simp only [] at h
            cases h
            by_cases hss : meta.institution_id = site
            · rw [if_pos hss]; simp
            · rw [if_neg hss]; simp
          | num q =>
            rw [hv] at h
            simp only [] at h
            cases h
            by_cases hss : meta.institution_id = site
            · subst hss
              rw [valsAt_appendVal_self _ _ _ (by rw [hg]; rfl), if_pos rfl]
              simp
            · rw [valsAt_appendVal_ne _ _ _ _ (fun hc => hss hc.symm), if_neg hss]
              simp

/-- One step succeeds exactly on processable records, independent of the
accumulated state. -/
theorem aggStep_ok_iff (ps : List SubjectMeta) (metric : String)
    (cfg : List (String × List String)) (st : AggMap × List String)
    (r : MetricRecord) :
    (∃ st', aggStep ps metric cfg st r = .ok st') ↔ stepOK ps metric cfg r := by
  unfold aggStep stepOK
  cases hf : fetch_subject r.filename with
  | error e => simp [hf]
  | ok s =>
    simp only [hf]
    by_cases hr : remove_subject s metric cfg
    · simp [hr]
    · rw [if_neg hr]
      cases hl : lookupParticipant ps s with
      | error e => simp [hl, hr]
      | ok meta => simp [hl, hr]

/-- A record whose subject is missing from the metadata makes the step
raise pandas' generic `IndexError` on index 0. -/
theorem aggStep_missing (ps : List SubjectMeta) (metric : String)
    (cfg : List (String × List String)) (st : AggMap × List String)
    (r : MetricRecord) (s : String)
    (hf : fetch_subject r.filename = .ok s)
    (hr : remove_subject s metric cfg = false)
    (hl : lookupParticipant ps s = .error (.indexError 0)) :
    aggStep ps metric cfg st r = .error (.indexError 0) := by
  unfold aggStep
  rw [hf]
  simp only []
  rw [hr]
  simp only [Bool.false_eq_true, if_false, hl]

theorem aggLoop_append (ps : List SubjectMeta) (metric : String)
    (cfg : List (String × List String)) (l₁ l₂ : List MetricRecord)
    (st : AggMap × List String) :
    aggLoop ps metric cfg (l₁ ++ l₂) st =
      match aggLoop ps metric cfg l₁ st with
      | .ok st' => aggLoop ps metric cfg l₂ st'
      | .error e => .error e := by
  induction l₁ generalizing st with
  | nil => rfl
  | cons r t ih =>
    simp only [List.cons_append, aggLoop]
    cases aggStep ps metric cfg st r with
    | error e => rfl
    | ok st₁ => exact ih st₁

theorem aggLoop_ok_vals (ps : List SubjectMeta) (metric : String)
    (cfg : List (String × List String)) (recs : List MetricRecord)
    (st st' : AggMap × List String)
    (h : aggLoop ps metric cfg recs st = .ok st') (site : String) :
    valsAt st'.1 site = valsAt st.1 site ++
      recs.filterMap (fun r => recContrib ps metric cfg site r) := by
  induction recs generalizing st with
  | nil => cases h; simp
  | cons r t ih =>
    unfold aggLoop at h
    cases hs : aggStep ps metric cfg st r with
    | error e => rw [hs] at h; simp at h
    | ok st₁ =>
      rw [hs] at h
      have h1 := aggStep_ok_vals ps metric cfg st r st₁ hs site
      have h2 := ih st₁ h
      rw [h2, h1, List.filterMap_cons]
      cases recContrib ps metric cfg site r with
      | none => simp
      | some q => simp

theorem aggLoop_ok_iff (ps : List SubjectMeta) (metric : String)
    (cfg : List (String × List String)) (recs : List MetricRecord)
    (st : AggMap × List String) :
    (∃ st', aggLoop ps metric cfg recs st = .ok st') ↔
      ∀ r ∈ recs, stepOK ps metric cfg r := by
  induction recs generalizing st with
  | nil => simp [aggLoop]
  | cons r t ih =>
    simp only [aggLoop]
    constructor
    · rintro ⟨st', h⟩
      cases hs : aggStep ps metric cfg st r with
      | error e => rw [hs] at h; simp at h
      | ok st₁ =>
        rw [hs] at h
        intro r' hr'
        rcases List.mem_cons.mp hr' with heq | hmem
        · rw [heq]
          exact (aggStep_ok_iff ps metric cfg st r).mp ⟨st₁, hs⟩
        · exact ((ih st₁).mp ⟨st', h⟩) r' hmem
    · intro hall
      obtain ⟨st₁, hs⟩ :=
        (aggStep_ok_iff ps metric cfg st r).mpr (hall r (by simp))
      rw [hs]
      exact (ih st₁).mpr (fun r' hr' => hall r' (by simp [hr']))

theorem valsAt_nil (site : String) : valsAt [] site = [] := rfl

/-- C6: on a successful aggregation every site's value list is exactly
the list of contributions of the records — so it never contains a value
whose raw field was the literal `"None"`, nor a value of a subject removed
by the exclusion policy — and any permutation of the input records also
aggregates successfully, with every per-site value list a permutation of
the original one. -/
theorem aggregate_vals_provenance_and_perm (ps : List SubjectMeta)
    (metric : String) (cfg : List (String × List String))
    (recs₁ recs₂ : List MetricRecord) (res₁ : AggMap)
    (hperm : recs₁.Perm recs₂)
    (h₁ : aggregate_per_site recs₁ metric cfg ps = .ok res₁) :
    (∀ site, valsAt res₁ site =
      recs₁.filterMap (fun r => recContrib ps metric cfg site r)) ∧
    ∃ res₂, aggregate_per_site recs₂ metric cfg ps = .ok res₂ ∧
      ∀ site, (valsAt res₁ site).Perm (valsAt res₂ site) := by
  unfold aggregate_per_site at h₁
  cases hL₁ : aggLoop ps metric cfg recs₁ ([], []) with
  | error e => rw [hL₁] at h₁; simp at h₁
  | ok st₁ =>
    rw [hL₁] at h₁
    simp only [Except.ok.injEq] at h₁
    subst h₁
    have hchar₁ : ∀ site, valsAt st₁.1 site =
        recs₁.filterMap (fun r => recContrib ps metric cfg site r) := by
      intro site
      have := aggLoop_ok_vals ps metric cfg recs₁ ([], []) st₁ hL₁ site
      simpa [valsAt_nil] using this
    refine ⟨hchar₁, ?_⟩
    have hall₁ : ∀ r ∈ recs₁, stepOK ps metric cfg r :=
      (aggLoop_ok_iff ps metric cfg recs₁ ([], [])).mp ⟨st₁, hL₁⟩
    have hall₂ : ∀ r ∈ recs₂, stepOK ps metric cfg r :=
      fun r hr => hall₁ r (hperm.mem_iff.mpr hr)
    obtain ⟨st₂, hL₂⟩ :=
      (aggLoop_ok_iff ps metric cfg recs₂ ([], [])).mpr hall₂
    have hchar₂ : ∀ site, valsAt st₂.1 site =
        recs₂.filterMap (fun r => recContrib ps metric cfg site r) := by
      intro site
      have := aggLoop_ok_vals ps metric cfg recs₂ ([], []) st₂ hL₂ site
      simpa [valsAt_nil] using this
    refine ⟨st₂.1, ?_, ?_⟩
    · unfold aggregate_per_site
      rw [hL₂]
    · intro site
      rw [hchar₁ site, hchar₂ site]
      exact hperm.filterMap _

/-- C6 witness: three records (a numeric value, a `"None"` value, an
excluded subject's value) aggregated in two orders. -/
theorem aggregate_vals_provenance_and_perm_witness :
    valsAt res₁W "s1" =
      recs₁W.filterMap (fun r => recContrib mdC6 "m" cfgC6 "s1" r) ∧
    ∃ res₂, aggregate_per_site recs₂W "m" cfgC6 mdC6 = .ok res₂ ∧
      (valsAt res₁W "s1").Perm (valsAt res₂ "s1") := by
  have h := aggregate_vals_provenance_and_perm mdC6 "m" cfgC6 recs₁W recs₂W res₁W
    (List.Perm.swap _ _ _) (by decide)
  obtain ⟨h1, res₂, h2, h3⟩ := h
  exact ⟨h1 "s1", res₂, h2, h3 "s1"⟩

/-- C5 (amended): a record whose derived subject id is missing from the
metadata table makes the whole aggregation fail — a successful run implies
every non-removed record's subject was found — but the raised error is
pandas' generic out-of-bounds `IndexError`, which does not carry the
subject id. -/
theorem aggregate_missing_subject_fails (ps : List SubjectMeta)
    (metric : String) (cfg : List (String × List String)) :
    (∀ recs res, aggregate_per_site recs metric cfg ps = .ok res →
      ∀ r ∈ recs, ∀ s, fetch_subject r.filename = .ok s →
        remove_subject s metric cfg = false →
        ∃ p, lookupParticipant ps s = .ok p) ∧
    (∀ pre r post s, (∀ r' ∈ pre, stepOK ps metric cfg r') →
      fetch_subject r.filename = .ok s →
      remove_subject s metric cfg = false →
      lookupParticipant ps s = .error (.indexError 0) →
      aggregate_per_site (pre ++ r :: post) metric cfg ps =
        .error (.indexError 0)) := by
  constructor
  · intro recs res hok r hr s hf hrem
    unfold aggregate_per_site at hok
    cases hL : aggLoop ps metric cfg recs ([], []) with
    | error e => rw [hL] at hok; simp at hok
    | ok st =>
      have hall := (aggLoop_ok_iff ps metric cfg recs ([], [])).mp ⟨st, hL⟩
      obtain ⟨s', hf', hs'⟩ := hall r hr
      rw [hf] at hf'
      cases hf'
      rcases hs' with hrem' | hp
      · rw [hrem] at hrem'; cases hrem'
      · exact hp
  · intro pre r post s hpre hf hrem hl
    obtain ⟨st', hL⟩ := (aggLoop_ok_iff ps metric cfg pre ([], [])).mpr hpre
    unfold aggregate_per_site
    rw [aggLoop_append, hL]
    unfold aggLoop
    rw [aggStep_missing ps metric cfg st' r s hf hrem hl]

/-- C5 witness: the missing-subject theorem applied to the single record
of subject `sub-xxx09`, absent from the metadata table. -/
theorem aggregate_missing_subject_fails_witness :
    aggregate_per_site [⟨"d/sub-xxx09/anat/m.csv", .num 5⟩] "m" [] mdC5 =
      .error (.indexError 0) := by
  have h := (aggregate_missing_subject_fails mdC5 "m" []).2
    [] ⟨"d/sub-xxx09/anat/m.csv", .num 5⟩ [] "sub-xxx09"
    (by intro r' hr'; cases hr') (by decide) (by decide) (by decide)
  simpa using h

/-- C5 counterexample: two runs whose (distinct) offending subject ids are
missing from the metadata table both fail with the identical error value
`IndexError 0` — the raised error is a generic failure that does not
surface the offending subject id. -/
theorem aggregate_missing_subject_generic_error :
    fetch_subject "d/sub-aaa01/anat/m.csv" = .ok "sub-aaa01" ∧
    fetch_subject "d/sub-bbb01/anat/m.csv" = .ok "sub-bbb01" ∧
    aggregate_per_site [⟨"d/sub-aaa01/anat/m.csv", .num 5⟩] "m" [] mdC5 =
      .error (.indexError 0) ∧
    aggregate_per_site [⟨"d/sub-bbb01/anat/m.csv", .num 7⟩] "m" [] mdC5 =
      .error (.indexError 0) := by
  refine ⟨?_, ?_, ?_, ?_⟩ <;> decide

theorem filter_vendor_exclude (df : List SiteRow) (v : String) :
    df.filter (fun r => r.vendor = v ∧ r.exclude = false)
      = (df.filter (fun r => r.exclude = false)).filter
          (fun r => r.vendor = v) := by
  rw [List.filter_filter]
  apply List.filter_congr
  intro a _
  by_cases h1 : a.vendor = v <;> by_cases h2 : a.exclude = false <;>
    simp [h1, h2]

/-- C1 (amended): the four per-vendor statistics `mean`, `std`,
`cov_inter`, `cov_intra` depend only on the non-excluded rows of the site
table: two tables with the same non-excluded rows yield identical values
for every vendor and every square root.  (The vendor ANOVA and the Tukey
input are *not* covered: the code computes them over all rows, excluded
sites included — see the counterexample.) -/
theorem vendor_stats_use_only_nonexcluded (sqrtFn : ℚ → ℚ) (v : String)
    (df₁ df₂ : List SiteRow)
    (h : df₁.filter (fun r => r.exclude = false)
       = df₂.filter (fun r => r.exclude = false)) :
    vendorMean df₁ v = vendorMean df₂ v ∧
    vendorStd sqrtFn df₁ v = vendorStd sqrtFn df₂ v ∧
    vendorCovInter sqrtFn df₁ v = vendorCovInter sqrtFn df₂ v ∧
    vendorCovIntra sqrtFn df₁ v = vendorCovIntra sqrtFn df₂ v := by
  have hf : df₁.filter (fun r => r.vendor = v ∧ r.exclude = false)
      = df₂.filter (fun r => r.vendor = v ∧ r.exclude = false) := by
    rw [filter_vendor_exclude, filter_vendor_exclude, h]
  refine ⟨?_, ?_, ?_, ?_⟩ <;>
  · simp only [vendorMean, vendorStd, vendorCovInter, vendorCovIntra,
      val_per_vendor]
    rw [hf]

/-- C1 witness: appending an excluded site to a table leaves all four
per-vendor statistics unchanged. -/
theorem vendor_stats_use_only_nonexcluded_witness :
    vendorMean dfC1' "GE" = vendorMean dfC1 "GE" ∧
    vendorStd (fun q => q) dfC1' "GE" = vendorStd (fun q => q) dfC1 "GE" ∧
    vendorCovInter (fun q => q) dfC1' "GE"
      = vendorCovInter (fun q => q) dfC1 "GE" ∧
    vendorCovIntra (fun q => q) dfC1' "GE"
      = vendorCovIntra (fun q => q) dfC1 "GE" :=
  vendor_stats_use_only_nonexcluded (fun q => q) "GE" dfC1' dfC1 (by decide)

/-- C1 counterexample: `dfA` and `dfB` agree on all non-excluded sites
(they differ only in the values of the excluded site `B`), yet the vendor
ANOVA statistic differs — the one-way ANOVA is computed over all sites,
excluded ones included, contradicting the claim that every vendor-level
statistic uses only non-excluded sites. -/
theorem anova_vendor_includes_excluded_cex :
    dfA.filter (fun r => r.exclude = false)
      = dfB.filter (fun r => r.exclude = false) ∧
    anova_vendor dfA ≠ anova_vendor dfB := by
  have hA : anova_vendor dfA = .ok (some (1 / 5)) := by
    simp only [anova_vendor, dfA, vendors, f_onewayOpt, f_oneway, npMean,
      allSome, List.filter, List.map, List.sum_cons, List.sum_nil,
      List.length, List.filterMap, id, Option.isNone]
    norm_num
  have hB : anova_vendor dfB = .ok (some (9 / 85)) := by
    simp only [anova_vendor, dfB, vendors, f_onewayOpt, f_oneway, npMean,
      allSome, List.filter, List.map, List.sum_cons, List.sum_nil,
      List.length, List.filterMap, id, Option.isNone]
    norm_num
  refine ⟨by decide, ?_⟩
  rw [hA, hB]
  intro hc
  simp only [Except.ok.injEq, Option.some.injEq] at hc
  norm_num at hc

theorem setExcludeTok_eq (rows : List SiteRow) (t : String) :
    setExcludeTok rows t = rows.map (fun r =>
      { r with exclude := r.exclude || decide (r.site = t) }) := by
  unfold setExcludeTok
  apply List.map_congr_left
  intro r _
  by_cases hs : r.site = t
  · simp [hs]
  · simp [hs]

theorem foldl_setExclude (toks : List String) (rows : List SiteRow)
    (g : SiteRow → Bool) :
    toks.foldl
        (fun rs t => if strStartsWith t "sub-" then rs else setExcludeTok rs t)
        (rows.map (fun r => { r with exclude := g r }))
      = rows.map (fun r => { r with exclude := (g r ||
          toks.any (fun t =>
            !strStartsWith t "sub-" && decide (r.site = t))) }) := by
  induction toks generalizing g with
  | nil => simp
  | cons t ts ih =>
    simp only [List.foldl_cons]
    by_cases ht : strStartsWith t "sub-"
    · rw [if_pos ht, ih g]
      simp [List.any_cons, ht]
    · rw [if_neg ht, setExcludeTok_eq, List.map_map]
      have hcomp : ((fun r : SiteRow =>
          { r with exclude := r.exclude || decide (r.site = t) }) ∘
          (fun r : SiteRow => { r with exclude := g r }))
        = fun r : SiteRow =>
            { r with exclude := (fun r' : SiteRow =>
                g r' || decide (r'.site = t)) r } := by
        funext r
        rfl
      rw [hcomp, ih (fun r' => g r' || decide (r'.site = t))]
      simp [List.any_cons, ht, Bool.or_assoc]

/-- The post-pass flag of each site equals membership of the site's bare
name among the metric's non-`sub-` tokens. -/
theorem markExcludedSites_spec (rows : List SiteRow) (metric : String)
    (cfg : List (String × List String)) :
    markExcludedSites rows metric cfg = rows.map (fun r =>
      { r with exclude := (((dictGet? cfg metric).getD []).any
          (fun t => !strStartsWith t "sub-" && decide (r.site = t))) }) := by
  unfold markExcludedSites
  cases hc : dictGet? cfg metric with
  | none => simp
  | some toks =>
    have h := foldl_setExclude toks rows (fun _ => false)
    simpa using h

/-- C4 (amended): the post-pass sets a site's `excluded` flag exactly when
the site's bare name occurs among the metric's exclusion tokens that do
not start with `'sub-'` — subject tokens never flag a site (they remove
that subject's values during aggregation instead); a site excluded by a
bare token still gets its per-site statistics computed (the per-site
column covers every row) while the vendor mean ignores excluded rows. -/
theorem post_pass_bare_site_tokens_only :
    (∀ rows metric cfg, markExcludedSites rows metric cfg
      = rows.map (fun r =>
          { r with exclude := (((dictGet? cfg metric).getD []).any
              (fun t => !strStartsWith t "sub-" && decide (r.site = t))) })) ∧
    (∀ (sqrtFn : ℚ → ℚ) (df : List SiteRow),
      (compute_statistics sqrtFn df).toOption.map (fun out => out.1)
        = (compute_statistics sqrtFn df).toOption.map
            (fun _ => df.map (fun r => (r, siteStatsFn sqrtFn r.val)))) ∧
    (∀ (df : List SiteRow) (v : String),
      vendorMean df v
        = vendorMean (df.filter (fun r => r.exclude = false)) v) := by
  refine ⟨markExcludedSites_spec, ?_, ?_⟩
  · intro sqrtFn df
    unfold compute_statistics
    cases anova_site df with
    | error e => rfl
    | ok aSite =>
      cases anova_vendor df with
      | error e => rfl
      | ok aVendor => rfl
  · intro df v
    unfold vendorMean val_per_vendor
    rw [filter_vendor_exclude df v,
      filter_vendor_exclude (df.filter (fun r => r.exclude = false)) v]
    rw [show (df.filter (fun r => r.exclude = false)).filter
          (fun r => r.exclude = false)
        = df.filter (fun r => r.exclude = false) from by
      rw [List.filter_filter]
      apply List.filter_congr
      intro a _
      by_cases hB : a.exclude = false <;> simp [hB]]

/-- C4 counterexample: metric `m` excludes the subject token `sub-B01`,
whose site (per the metadata) is `B`; the post-pass leaves site `B`'s flag
at `false` — a subject token at the site does not set `excluded`, contrary
to the claim's "or any subject at that site" clause. -/
theorem subject_token_does_not_flag_site_cex :
    lookupParticipant mdC4 "sub-B01" = .ok ⟨"sub-B01", "B", "GE", "Signa"⟩ ∧
    dictGet? [("m", ["sub-B01"])] "m" = some ["sub-B01"] ∧
    (markExcludedSites [rowB] "m" [("m", ["sub-B01"])]).map
        (fun r => r.exclude) = [false] := by
  refine ⟨by decide, by decide, by decide⟩

/-- C8 (amended): `compute_statistics` builds its per-vendor tables over
the fixed key list `["GE", "Philips", "Siemens"]` regardless of which
vendors appear in the dataframe — an unrecognized vendor is silently
absent from those tables rather than raising. -/
theorem compute_statistics_fixed_vendor_keys (sqrtFn : ℚ → ℚ)
    (df : List SiteRow) :
    (statsOf (compute_statistics sqrtFn df)).map
        (fun s => (s.mean.map Prod.fst, s.std.map Prod.fst,
                   s.cov_inter.map Prod.fst, s.cov_intra.map Prod.fst))
      = (statsOf (compute_statistics sqrtFn df)).map
          (fun _ => (vendors, vendors, vendors, vendors)) := by
  unfold compute_statistics statsOf
  cases anova_site df with
  | error e => rfl
  | ok aSite =>
    cases anova_vendor df with
    | error e => rfl
    | ok aVendor =>
      simp [Except.toOption, List.map_map, Function.comp_def]

/-- C8 counterexample: a table containing the unrecognized vendor `Foo`
does not make `compute_statistics` raise; the run succeeds, the per-vendor
mean table has exactly the three fixed keys (no `Foo`), and the `Foo` row
still flows into the Tukey arguments. -/
theorem unknown_vendor_no_raise_cex :
    "Foo" ∈ dfFoo.map (fun r => r.vendor) ∧
    "Foo" ∉ vendors ∧
    (statsOf (compute_statistics (fun q => q) dfFoo)).isSome = true ∧
    (statsOf (compute_statistics (fun q => q) dfFoo)).map
        (fun s => s.mean.map Prod.fst) = some ["GE", "Philips", "Siemens"] ∧
    (statsOf (compute_statistics (fun q => q) dfFoo)).map
        (fun s => s.tukey_args.map Prod.snd)
      = some ["GE", "GE", "Philips", "Siemens", "Foo"] := by
  have h1 : anova_site dfFoo = .ok none := by
    simp only [anova_site, dfFoo, f_oneway, npMean, List.filter, List.map,
      List.sum_cons, List.sum_nil, List.length]
    norm_num
  have h2 : anova_vendor dfFoo = .ok (some (3 / 4)) := by
    simp only [anova_vendor, dfFoo, vendors, f_onewayOpt, f_oneway, npMean,
      allSome, List.filter, List.map, List.sum_cons, List.sum_nil,
      List.length, List.filterMap, id, Option.isNone]
    norm_num
  refine ⟨by decide, by decide, ?_, ?_, ?_⟩ <;>
  · unfold compute_statistics statsOf
    rw [h1, h2]
    simp [Except.toOption, vendors, tukeyArgs, dfFoo, List.map_map,
      Function.comp_def]

/-- C9: `compute_statistics` returns every input row unchanged alongside
the added per-site columns (the five SiteAggregate fields are preserved),
and the sorted view taken by figure preparation is a permutation of the
rows, not a modification of them. -/
theorem compute_statistics_preserves_rows (sqrtFn : ℚ → ℚ)
    (df : List SiteRow) :
    ((compute_statistics sqrtFn df).toOption.map
        (fun out => out.1.map Prod.fst)
      = (compute_statistics sqrtFn df).toOption.map (fun _ => df)) ∧
    (sortedRows df).Perm df := by
  constructor
  · unfold compute_statistics
    cases anova_site df with
    | error e => rfl
    | ok aSite =>
      cases anova_vendor df with
      | error e => rfl
      | ok aVendor =>
        simp [Except.toOption, List.map_map, Function.comp_def]
  · exact List.perm_insertionSort rowLE df

end SpineGeneric
